import Mathlib

/-!
Shallow embedding of the QuantumDock job-orchestration code.

The embedded functions follow the simulated React hooks module
(`useDocking` and friends): an in-memory array `mockJobs` of job records,
mutated in place by `createDockingJob`, `cancelJob`, `deleteJob` and the
polling routine `pollJobStatus`, read by `loadJobs`.  The client-side
polling utility `QuantumDockAPI.pollJobStatus` from the API service module
is embedded as well.

Modelling conventions:
- JavaScript numbers are modelled as rationals (`ℚ`); `Math.round` is
  Mathlib's `round` on `ℚ`.
- The mutable `mockJobs` array is threaded explicitly as a `List DockingJob`
  in array order (pushes append at the end).
- JavaScript object references for parameter objects are modelled by an
  explicit heap (`Heap`, a list of parameter records indexed by position):
  a job record stores the index of the parameter object it references,
  exactly as the source stores `request.parameters` by reference.
- Nondeterministic environment inputs (`Date.now()`, the generated job id,
  `Math.random()`) are passed in as explicit arguments.
-/

namespace QuantumDock

/-- Job status, the string union `'pending' | 'running' | 'completed' |
'failed' | 'cancelled'` of the `DockingJob` interface. -/
inductive JobStatus where
  | pending
  | running
  | completed
  | failed
  | cancelled
deriving DecidableEq, Repr

/-- A status is terminal when it is `completed`, `failed` or `cancelled`
(the statuses on which the client-side poll loop resolves). -/
def isTerminal : JobStatus → Bool
  | .completed => true
  | .failed => true
  | .cancelled => true
  | _ => false

/-- The `DockingParameters` interface of the API service module. -/
structure DockingParameters where
  center_x : ℚ
  center_y : ℚ
  center_z : ℚ
  size_x : ℚ
  size_y : ℚ
  size_z : ℚ
  exhaustiveness : ℚ
  num_modes : ℚ
  energy_range : ℚ
  seed : Option ℚ := none
deriving DecidableEq, Repr

/-- The `Interaction` interface of the API service module. -/
structure Interaction where
  interaction_type : String
  residue : String
  distance : ℚ
  angle : Option ℚ := none
  strength : Option ℚ := none
deriving DecidableEq, Repr

/-- The `DockingResult` interface (one pose outcome). -/
structure DockingResult where
  mode : ℚ
  binding_affinity : ℚ
  rmsd_lower_bound : ℚ
  rmsd_upper_bound : ℚ
  interactions : List Interaction
deriving DecidableEq, Repr

/-- The `DockingJob` record of the simulated hooks module.  `paramsRef` is
the heap index of the parameter object the record references (the source
stores `request.parameters`, i.e. the caller's object itself). -/
structure DockingJob where
  job_id : String
  protein_id : String
  ligand_id : String
  paramsRef : Nat
  status : JobStatus
  progress : ℚ
  created_at : ℚ
  started_at : Option ℚ := none
  completed_at : Option ℚ := none
  results : Option (List DockingResult) := none
  error_message : Option String := none
deriving DecidableEq, Repr

/-- The `AnalysisRequest` interface: what the caller passes to
`createDockingJob`.  `paramsRef` is the reference to the caller's
parameter object. -/
structure AnalysisRequest where
  protein_id : String
  ligand_id : String
  paramsRef : Nat
  job_name : Option String := none
  priority : Option ℚ := none
deriving DecidableEq, Repr

/-- The heap of parameter objects: JavaScript object references are
modelled as indices into this list. -/
abbrev Heap := List DockingParameters

/-- The `mockJobs` array, in array order. -/
abbrev JobStore := List DockingJob

/-- Embeds `mockJobs.find(j => j.job_id === jobId)`: the first record with the
given id, if any. -/
def findJob (jobs : JobStore) (jobId : String) : Option DockingJob :=
  jobs.find? fun j => decide (j.job_id = jobId)

/-- In-place mutation of the record found by `mockJobs.find`: apply `f` to
the first record whose `job_id` matches, leave everything else alone. -/
def updateFirst (jobs : JobStore) (jobId : String) (f : DockingJob → DockingJob) :
    JobStore :=
  match jobs with
  | [] => []
  | j :: rest =>
    if j.job_id = jobId then f j :: rest else j :: updateFirst rest jobId f

/-- Embeds `mockJobs.splice(index, 1)` after `findIndex`: remove the first record
whose `job_id` matches; no-op when the id is absent (`index === -1`). -/
def removeFirst (jobs : JobStore) (jobId : String) : JobStore :=
  match jobs with
  | [] => []
  | j :: rest =>
    if j.job_id = jobId then rest else j :: removeFirst rest jobId

/-- Embeds `loadJobs` (simulated hooks): copies `mockJobs`, and when a status
filter is given returns `mockJobs.filter(job => job.status === status)`.
The returned list is in `mockJobs` array order. -/
def loadJobs (jobs : JobStore) (statusFilter : Option JobStatus) : JobStore :=
  match statusFilter with
  | none => jobs
  | some s => jobs.filter fun j => decide (j.status = s)

/-- Embeds `createDockingJob` (simulated hooks): builds a new record with status
`'pending'`, `progress: 0`, `created_at` the current time, the caller's
`protein_id`, `ligand_id` and — by reference — the caller's `parameters`
object, then pushes it onto `mockJobs`.  No field of the request is
validated.  `jobId` stands for the generated string
`job_(Date.now())_(jobCounter++)` and `now` for `new Date()`. -/
def createDockingJob (jobs : JobStore) (request : AnalysisRequest)
    (jobId : String) (now : ℚ) : JobStore × DockingJob :=
  let newJob : DockingJob :=
    { job_id := jobId
      protein_id := request.protein_id
      ligand_id := request.ligand_id
      paramsRef := request.paramsRef
      status := .pending
      progress := 0
      created_at := now }
  (jobs ++ [newJob], newJob)

/-- Embeds `cancelJob` (simulated hooks): finds the record by id; when found, sets
its status to `'cancelled'` (whatever the current status is); in every case
returns `{ success: true }` (the boolean component). -/
def cancelJob (jobs : JobStore) (jobId : String) : JobStore × Bool :=
  (updateFirst jobs jobId (fun j => { j with status := .cancelled }), true)

/-- Embeds `deleteJob` (simulated hooks): `findIndex` then `splice(index, 1)` when
present; in every case returns `{ success: true }`. -/
def deleteJob (jobs : JobStore) (jobId : String) : JobStore × Bool :=
  (removeFirst jobs jobId, true)

/-- The entry step of `pollJobStatus` (simulated hooks): if the found job is
`'pending'`, set it to `'running'` and stamp `started_at`; otherwise leave
it unchanged.  No check of how many other jobs are running is made. -/
def startIfPending (j : DockingJob) (now : ℚ) : DockingJob :=
  if j.status = .pending then { j with status := .running, started_at := some now }
  else j

/-- Store-level entry step of `pollJobStatus`: `mockJobs.find` then the
pending-to-running mutation; absent ids are left alone (`if (!job) return`). -/
def pollJobStart (jobs : JobStore) (jobId : String) (now : ℚ) : JobStore :=
  updateFirst jobs jobId fun j => startIfPending j now

/-- Embeds `Math.round(x * 100) / 100`: rounding to two decimal places. -/
def round2 (x : ℚ) : ℚ := (round (x * 100) : ℤ) / 100

/-- The results array installed by `pollJobStatus` when the simulated job
completes (the literal object at its completion branch). -/
def mockCompletedResults : List DockingResult :=
  [{ mode := 0
     binding_affinity := -82 / 10
     rmsd_lower_bound := 0
     rmsd_upper_bound := 21 / 10
     interactions :=
       [{ interaction_type := "hydrogen_bond", residue := "ASP189",
          distance := 28 / 10, strength := some (92 / 100) },
        { interaction_type := "hydrophobic", residue := "PHE130",
          distance := 35 / 10, strength := some (78 / 100) }] }]

/-- One firing of the `setInterval` callback of `pollJobStatus`, on the
record it re-finds.  If the job is no longer `'running'` the interval is
cleared and nothing changes.  Otherwise
`progress = Math.round(Math.min(progress + Math.random() * 50, 99) * 100) / 100`
(`r` stands for the `Math.random()` draw, so the increment is `r * 50`),
and when the new progress reaches 90 the job is finished: progress is
forced to 100, status becomes `'completed'`, `completed_at` is stamped and
the mock results are installed. -/
def progressTickJob (j : DockingJob) (r : ℚ) (now : ℚ) : DockingJob :=
  if j.status = .running then
    let p := round2 (min (j.progress + r * 50) 99)
    if 90 ≤ p then
      { j with progress := 100, status := .completed,
               completed_at := some now, results := some mockCompletedResults }
    else { j with progress := p }
  else j

/-- Store-level interval callback: re-find the record by id and apply the
tick; an id that is gone is a no-op (`if (!currentJob ...) return`). -/
def progressTick (jobs : JobStore) (jobId : String) (r : ℚ) (now : ℚ) : JobStore :=
  updateFirst jobs jobId fun j => progressTickJob j r now

/-- The 30-second cleanup of `pollJobStatus`:
`setTimeout(() => clearInterval(progressInterval), 30000)`.  It only clears
the interval timer; no job record is read or written.  The boolean is the
interval's liveness after the handler runs. -/
def cleanupTimeout (jobs : JobStore) : JobStore × Bool := (jobs, false)

/-- Embeds `validateDockingParameters` (simulated hooks): collects warnings for
`exhaustiveness < 8` and for any search-space edge under 15, and reports
`valid` iff there is no warning.  (The random `estimated_runtime` and the
static recommendation strings of the source are omitted; they carry no
information about the parameters.)  It is a standalone helper: nothing in
`createDockingJob` calls it. -/
def validateDockingParameters (p : DockingParameters) : Bool × List String :=
  let w1 : List String :=
    if p.exhaustiveness < 8 then ["Low exhaustiveness may reduce accuracy"] else []
  let w2 : List String :=
    if p.size_x < 15 ∨ p.size_y < 15 ∨ p.size_z < 15 then
      ["Search space might be too small"] else []
  let warnings := w1 ++ w2
  (decide (warnings.length = 0), warnings)

/-- Dereference a parameter object: `heap[r]`. -/
def derefParams (heap : Heap) (r : Nat) : Option DockingParameters :=
  heap[r]?

/-- Caller-side mutation of a parameter object after submission: write a
new value through the reference `r`. -/
def mutateParams (heap : Heap) (r : Nat) (p : DockingParameters) : Heap :=
  heap.set r p

/-- The parameters held by the stored record with id `jobId`, read through
the record's reference into the heap. -/
def jobParams (heap : Heap) (jobs : JobStore) (jobId : String) :
    Option DockingParameters :=
  (findJob jobs jobId).bind fun j => derefParams heap j.paramsRef

/-- Number of records currently in status `'running'`. -/
def countRunning (jobs : JobStore) : Nat :=
  (jobs.filter fun j => decide (j.status = .running)).length

/-- Outcome of the client-side polling utility: the promise either resolves
with a job or rejects with an error message. -/
inductive PollOutcome where
  | resolved (j : DockingJob)
  | rejected (e : String)
deriving DecidableEq, Repr

/-- Embeds `QuantumDockAPI.pollJobStatus` (API service module) over the
stream of fetch results its repeated `getDockingJob` calls return.  A fetch
error rejects the promise; a job in a terminal status
(`completed`/`failed`/`cancelled`) resolves it; any other status schedules
another poll (`setTimeout(poll, intervalMs)`), i.e. the loop moves on to
the next fetch result.  `none` means the observed stream ended with the
loop still polling. -/
def pollJobStatusClient : List (Except String DockingJob) → Option PollOutcome
  | [] => none
  | .error e :: _ => some (.rejected e)
  | .ok j :: rest =>
    if isTerminal j.status then some (.resolved j) else pollJobStatusClient rest

/-! Sample data used by concrete counterexamples and witnesses. -/

/-- A concrete job record builder for concrete scenarios: fixed protein and
ligand ids, parameter reference 0, no optional fields. -/
def mkJob (id : String) (st : JobStatus) (prog : ℚ) (created : ℚ) : DockingJob :=
  { job_id := id
    protein_id := "protein_001"
    ligand_id := "ligand_001"
    paramsRef := 0
    status := st
    progress := prog
    created_at := created }

/-- A concrete submission request referencing parameter object 0. -/
def sampleRequest : AnalysisRequest :=
  { protein_id := "protein_001", ligand_id := "ligand_001", paramsRef := 0 }

/-! Helper lemmas about the store primitives. -/

theorem find_none_no_match {jobs : JobStore} {jid : String}
    (h : findJob jobs jid = none) : ∀ j ∈ jobs, j.job_id ≠ jid := by
  intro j hj
  have := List.find?_eq_none.mp h j hj
  simpa using this

theorem updateFirst_of_find_none {jobs : JobStore} {jid : String}
    (f : DockingJob → DockingJob) (h : findJob jobs jid = none) :
    updateFirst jobs jid f = jobs := by
  induction jobs with
  | nil => rfl
  | cons j rest ih =>
    have hj : j.job_id ≠ jid := find_none_no_match h j (by simp)
    have hrest : findJob rest jid = none := by
      rw [findJob, List.find?_eq_none]
      intro x hx
      simpa using find_none_no_match h x (by simp [hx])
    simp [updateFirst, hj, ih hrest]

theorem removeFirst_of_find_none {jobs : JobStore} {jid : String}
    (h : findJob jobs jid = none) : removeFirst jobs jid = jobs := by
  induction jobs with
  | nil => rfl
  | cons j rest ih =>
    have hj : j.job_id ≠ jid := find_none_no_match h j (by simp)
    have hrest : findJob rest jid = none := by
      rw [findJob, List.find?_eq_none]
      intro x hx
      simpa using find_none_no_match h x (by simp [hx])
    simp [removeFirst, hj, ih hrest]

theorem findJob_updateFirst {jobs : JobStore} {jid : String} {j : DockingJob}
    (f : DockingJob → DockingJob) (hfind : findJob jobs jid = some j)
    (hid : (f j).job_id = j.job_id) :
    findJob (updateFirst jobs jid f) jid = some (f j) := by
  induction jobs with
  | nil => simp [findJob] at hfind
  | cons x rest ih =>
    by_cases hx : x.job_id = jid
    · have : x = j := by
        have := hfind
        rw [findJob, List.find?_cons_of_pos _ (by simpa using hx)] at this
        simpa using this
      subst this
      rw [updateFirst]
      simp only [if_pos hx]
      rw [findJob, List.find?_cons_of_pos _ (by simp [hid, hx])]
    · have hrest : findJob rest jid = some j := by
        have := hfind
        rw [findJob, List.find?_cons_of_neg _ (by simpa using hx)] at this
        exact this
      rw [updateFirst]
      simp only [if_neg hx]
      rw [findJob, List.find?_cons_of_neg _ (by simpa using hx)]
      exact ih hrest

theorem findJob_removeFirst_of_unique {jobs : JobStore} {jid : String}
    (huniq : jobs.countP (fun x => decide (x.job_id = jid)) ≤ 1) :
    findJob (removeFirst jobs jid) jid = none := by
  induction jobs with
  | nil => rfl
  | cons x rest ih =>
    by_cases hx : x.job_id = jid
    · have hcount : rest.countP (fun x => decide (x.job_id = jid)) = 0 := by
        rw [List.countP_cons] at huniq
        simp only [hx, decide_eq_true_eq, if_pos trivial] at huniq
        omega
      rw [removeFirst]
      simp only [if_pos hx]
      rw [findJob, List.find?_eq_none]
      intro a ha
      have := List.countP_eq_zero.mp hcount a ha
      simpa using this
    · have hrest : rest.countP (fun x => decide (x.job_id = jid)) ≤ 1 := by
        rw [List.countP_cons] at huniq
        omega
      rw [removeFirst]
      simp only [if_neg hx]
      rw [findJob, List.find?_cons_of_neg _ (by simpa using hx)]
      exact ih hrest

theorem mem_updateFirst {jobs : JobStore} {jid : String}
    {f : DockingJob → DockingJob} {x : DockingJob}
    (hx : x ∈ updateFirst jobs jid f) : x ∈ jobs ∨ ∃ j, j ∈ jobs ∧ x = f j := by
  induction jobs with
  | nil => simp [updateFirst] at hx
  | cons y rest ih =>
    by_cases hy : y.job_id = jid
    · rw [updateFirst] at hx
      simp only [if_pos hy] at hx
      rcases List.mem_cons.mp hx with h | h
      · exact Or.inr ⟨y, by simp, h⟩
      · exact Or.inl (by simp [h])
    · rw [updateFirst] at hx
      simp only [if_neg hy] at hx
      rcases List.mem_cons.mp hx with h | h
      · exact Or.inl (by simp [h])
      · rcases ih h with h' | ⟨j, hj, hxj⟩
        · exact Or.inl (by simp [h'])
        · exact Or.inr ⟨j, by simp [hj], hxj⟩

theorem mem_removeFirst {jobs : JobStore} {jid : String} {x : DockingJob}
    (hx : x ∈ removeFirst jobs jid) : x ∈ jobs := by
  induction jobs with
  | nil => simp [removeFirst] at hx
  | cons y rest ih =>
    by_cases hy : y.job_id = jid
    · rw [removeFirst] at hx
      simp only [if_pos hy] at hx
      simp [hx]
    · rw [removeFirst] at hx
      simp only [if_neg hy] at hx
      rcases List.mem_cons.mp hx with h | h
      · simp [h]
      · simp [ih h]

theorem findJob_append_new {jobs : JobStore} {jid : String} {x : DockingJob}
    (hfresh : findJob jobs jid = none) (hx : x.job_id = jid) :
    findJob (jobs ++ [x]) jid = some x := by
  rw [findJob, List.find?_append]
  rw [findJob] at hfresh
  rw [hfresh]
  simp [hx]

/-! Claim C10. -/

/-- Claim C10: for every job id not present in the store, `cancelJob` performs
no mutation of any record and nevertheless returns a success result
(`success = true`) rather than a not-found error; the same holds for
`deleteJob` on an unknown id. -/
theorem cancel_delete_unknown_id (jobs : JobStore) (jid : String)
    (h : findJob jobs jid = none) :
    cancelJob jobs jid = (jobs, true) ∧ deleteJob jobs jid = (jobs, true) := by
  constructor
  · rw [cancelJob, updateFirst_of_find_none _ h]
  · rw [deleteJob, removeFirst_of_find_none h]

/-- Concrete instance of `cancel_delete_unknown_id`: the id `job_404` is not in
a one-record store, yet cancel and delete both report success and leave the
store untouched. -/
theorem cancel_delete_unknown_id_witness :
    cancelJob [mkJob "job_1" JobStatus.running 40 0] "job_404" =
      ([mkJob "job_1" JobStatus.running 40 0], true) ∧
    deleteJob [mkJob "job_1" JobStatus.running 40 0] "job_404" =
      ([mkJob "job_1" JobStatus.running 40 0], true) :=
  cancel_delete_unknown_id [mkJob "job_1" JobStatus.running 40 0] "job_404"
    (by decide)

/-! Claim C1. -/

/-- Claim C1 as stated is false on the code: cancelling an already-completed
job does not fail with an invalid-state error — it reports success and the
job's status field is changed from `completed` to `cancelled`, moving the job
out of a terminal state. -/
theorem cancel_terminal_cex :
    (cancelJob [mkJob "job_1c" JobStatus.completed 100 0] "job_1c").2 = true ∧
    findJob (cancelJob [mkJob "job_1c" JobStatus.completed 100 0] "job_1c").1
        "job_1c" = some (mkJob "job_1c" JobStatus.cancelled 100 0) ∧
    (mkJob "job_1c" JobStatus.cancelled 100 0).status ≠
      (mkJob "job_1c" JobStatus.completed 100 0).status := by
  refine ⟨rfl, ?_, by decide⟩
  decide

/-- Claim C1 (amended): a Cancel call on a job in a terminal state does not
fail with `InvalidStateError`: it returns success and unconditionally
overwrites the job's status with `cancelled` while leaving every other field
of the record unchanged — so `completed` and `failed` jobs do transition out
of their terminal state. -/
theorem cancel_terminal_overwrites (jobs : JobStore) (jid : String)
    (j : DockingJob) (hfind : findJob jobs jid = some j)
    (_hterm : isTerminal j.status = true) :
    (cancelJob jobs jid).2 = true ∧
    findJob (cancelJob jobs jid).1 jid = some { j with status := .cancelled } := by
  refine ⟨rfl, ?_⟩
  exact findJob_updateFirst _ hfind rfl

/-- Concrete instance of `cancel_terminal_overwrites` on a failed job. -/
theorem cancel_terminal_overwrites_witness :
    (cancelJob [mkJob "job_1w" JobStatus.failed 55 0] "job_1w").2 = true ∧
    findJob (cancelJob [mkJob "job_1w" JobStatus.failed 55 0] "job_1w").1
        "job_1w" = some { mkJob "job_1w" JobStatus.failed 55 0 with
                          status := .cancelled } :=
  cancel_terminal_overwrites [mkJob "job_1w" JobStatus.failed 55 0] "job_1w"
    (mkJob "job_1w" JobStatus.failed 55 0) (by decide) (by decide)

/-! Claim C2. -/

/-- Claim C2 as stated is false on the code: deleting a running job does not
fail with an invalid-state error — it reports success and the record is
removed from the store. -/
theorem delete_running_cex :
    deleteJob [mkJob "job_2c" JobStatus.running 40 0] "job_2c" = ([], true) ∧
    findJob (deleteJob [mkJob "job_2c" JobStatus.running 40 0] "job_2c").1
      "job_2c" = none := by
  constructor
  · decide
  · decide

/-- Claim C2 (amended): Delete succeeds with a success result on a job in any
status — including `running`, for which no `InvalidStateError` is raised —
removing the record, after which looking the id up in the store finds
nothing (the not-found outcome of a subsequent Get). -/
theorem delete_any_status_removes (jobs : JobStore) (jid : String)
    (j : DockingJob) (_hfind : findJob jobs jid = some j)
    (huniq : jobs.countP (fun x => decide (x.job_id = jid)) ≤ 1) :
    (deleteJob jobs jid).2 = true ∧
    findJob (deleteJob jobs jid).1 jid = none := by
  refine ⟨rfl, ?_⟩
  exact findJob_removeFirst_of_unique huniq

/-- Concrete instance of `delete_any_status_removes` on a running job. -/
theorem delete_any_status_removes_witness :
    (deleteJob [mkJob "job_2w" JobStatus.running 10 0] "job_2w").2 = true ∧
    findJob (deleteJob [mkJob "job_2w" JobStatus.running 10 0] "job_2w").1
      "job_2w" = none :=
  delete_any_status_removes [mkJob "job_2w" JobStatus.running 10 0] "job_2w"
    (mkJob "job_2w" JobStatus.running 10 0) (by decide) (by decide)

/-! Claim C3. -/

/-- Parameter object of the submission scenario of claim C3:
`exhaustiveness = 0`, everything else unremarkable. -/
def c3Params : DockingParameters :=
  { center_x := 0, center_y := 0, center_z := 0
    size_x := 20, size_y := 20, size_z := 20
    exhaustiveness := 0, num_modes := 9, energy_range := 3 }

/-- The store produced by submitting job D with `exhaustiveness = 0`. -/
def c3Store : JobStore := (createDockingJob [] sampleRequest "job_D" 0).1

/-- Claim C3 as stated is false on the code: submitting with
`exhaustiveness = 0` does not fail with a validation error — even though the
standalone `validateDockingParameters` helper reports the parameters invalid,
`createDockingJob` creates a pending record anyway, and a subsequent `loadJobs`
does include job D with the rejected parameters still attached. -/
theorem submit_no_validation_cex :
    (validateDockingParameters c3Params).1 = false ∧
    (createDockingJob [] sampleRequest "job_D" 0).2.status = .pending ∧
    (createDockingJob [] sampleRequest "job_D" 0).2 ∈ loadJobs c3Store none ∧
    jobParams [c3Params] c3Store "job_D" = some c3Params := by
  refine ⟨by decide, rfl, by decide, by decide⟩

/-- Claim C3 (amended): `createDockingJob` performs no structural validation
of the submission at all and cannot fail: for every request — whatever the
parameters it references, including `exhaustiveness = 0` — a record with
status `pending`, progress `0` and the caller's parameter reference is
created and is included in a subsequent unfiltered `loadJobs`. -/
theorem submit_never_validates (jobs : JobStore) (request : AnalysisRequest)
    (jobId : String) (now : ℚ) :
    (createDockingJob jobs request jobId now).2.status = .pending ∧
    (createDockingJob jobs request jobId now).2.progress = 0 ∧
    (createDockingJob jobs request jobId now).2.paramsRef = request.paramsRef ∧
    (createDockingJob jobs request jobId now).2 ∈
      loadJobs (createDockingJob jobs request jobId now).1 none := by
  refine ⟨rfl, rfl, rfl, ?_⟩
  simp [createDockingJob, loadJobs]

/-! Claim C4. -/

/-- The store obtained by submitting jobs A and B and letting the polling
routine start both of them. -/
def c4Store : JobStore :=
  pollJobStart
    (pollJobStart
      [mkJob "job_A" JobStatus.pending 0 0, mkJob "job_B" JobStatus.pending 0 1]
      "job_A" 2)
    "job_B" 3

/-- Claim C4 as stated is false on the code: with a configured concurrency
limit of `N = 1`, submitting two jobs and polling each makes both `running`
at once — the second does not stay pending waiting for a free slot, and the
running count exceeds the limit. -/
theorem concurrency_limit_cex :
    countRunning c4Store = 2 ∧ ¬ countRunning c4Store ≤ 1 := by
  constructor
  · decide
  · decide

/-- Claim C4 (amended): no concurrency limit is enforced anywhere: the
polling routine moves any pending job it is called on straight to `running`
(stamping `started_at`), regardless of the store's current running count, so
any number of jobs can be simultaneously running. -/
theorem pollStart_unbounded (jobs : JobStore) (jid : String) (now : ℚ)
    (j : DockingJob) (hfind : findJob jobs jid = some j)
    (hp : j.status = .pending) :
    findJob (pollJobStart jobs jid now) jid =
      some { j with status := .running, started_at := some now } := by
  have : startIfPending j now = { j with status := .running, started_at := some now } := by
    rw [startIfPending, if_pos hp]
  rw [pollJobStart, findJob_updateFirst _ hfind (by rw [this]), this]

/-- Concrete instance of `pollStart_unbounded`: a pending job is admitted to
running even while two other jobs are already running. -/
theorem pollStart_unbounded_witness :
    findJob
      (pollJobStart
        [mkJob "job_r1" JobStatus.running 10 0,
         mkJob "job_r2" JobStatus.running 20 1,
         mkJob "job_p3" JobStatus.pending 0 2] "job_p3" 5)
      "job_p3" =
      some { mkJob "job_p3" JobStatus.pending 0 2 with
             status := .running, started_at := some 5 } :=
  pollStart_unbounded
    [mkJob "job_r1" JobStatus.running 10 0,
     mkJob "job_r2" JobStatus.running 20 1,
     mkJob "job_p3" JobStatus.pending 0 2] "job_p3" 5
    (mkJob "job_p3" JobStatus.pending 0 2) (by decide) (by decide)

/-! Claim C5. -/

/-- Rounding on `ℚ` is monotone. -/
theorem round_mono_of_le {x y : ℚ} (h : x ≤ y) : round x ≤ round y := by
  rw [round_eq, round_eq]
  exact Int.floor_le_floor (by linarith)

/-- Two-decimal rounding is monotone. -/
theorem round2_mono {x y : ℚ} (h : x ≤ y) : round2 x ≤ round2 y := by
  rw [round2, round2]
  have h100 : x * 100 ≤ y * 100 := by nlinarith
  have := round_mono_of_le h100
  have hcast : ((round (x * 100) : ℤ) : ℚ) ≤ ((round (y * 100) : ℤ) : ℚ) :=
    Int.cast_le.mpr this
  exact div_le_div_of_nonneg_right hcast (by norm_num) |>.trans_eq rfl

/-- Two-decimal rounding fixes every value with at most two decimals. -/
theorem round2_fix (k : ℤ) : round2 ((k : ℚ) / 100) = (k : ℚ) / 100 := by
  rw [round2, div_mul_cancel₀ _ (by norm_num : (100 : ℚ) ≠ 0), round_intCast]

/-- The progress invariant maintained by the module: progress lies in the
range 0 to 100, carries at most two decimals, stays at or below 99 while the
job has not finished, and is exactly 100 on a completed job. -/
def ProgressInv (j : DockingJob) : Prop :=
  0 ≤ j.progress ∧ j.progress ≤ 100 ∧
  (∃ k : ℤ, j.progress = (k : ℚ) / 100) ∧
  ((j.status = .pending ∨ j.status = .running) → j.progress ≤ 99) ∧
  (j.status = .completed → j.progress = 100)

/-- Claim C5: the progress field starts at 0 when `createDockingJob` creates
the record, never decreases under the polling progress updates, is left
unchanged by the start-of-run step and by cancellation, always stays within
0 to 100, and equals exactly 100 whenever the status is `completed`; the
invariant `ProgressInv` expressing this is preserved by every mutation of a
record the module performs. -/
theorem progress_lifecycle (jobs : JobStore) (request : AnalysisRequest)
    (jobId : String) (now t r : ℚ) (j : DockingJob)
    (hr : 0 ≤ r) (hinv : ProgressInv j) :
    ((createDockingJob jobs request jobId now).2.progress = 0 ∧
      ProgressInv (createDockingJob jobs request jobId now).2) ∧
    (j.progress ≤ (progressTickJob j r t).progress ∧
      ProgressInv (progressTickJob j r t)) ∧
    ((startIfPending j t).progress = j.progress ∧
      ProgressInv (startIfPending j t)) ∧
    ProgressInv { j with status := JobStatus.cancelled } ∧
    (0 ≤ j.progress ∧ j.progress ≤ 100) ∧
    (j.status = .completed → j.progress = 100) := by
  obtain ⟨h0, h100, ⟨k, hk⟩, h99, hcompl⟩ := hinv
  refine ⟨⟨rfl, ?_⟩, ?_, ?_, ?_, ⟨h0, h100⟩, hcompl⟩
  · exact ⟨by simp [createDockingJob], by norm_num [createDockingJob],
      ⟨0, by norm_num [createDockingJob]⟩,
      fun _ => by norm_num [createDockingJob],
      fun h => by simp [createDockingJob] at h⟩
  · -- the interval callback
    by_cases hrun : j.status = .running
    · have hp99 : j.progress ≤ 99 := h99 (Or.inr hrun)
      have hmin : j.progress ≤ min (j.progress + r * 50) 99 :=
        le_min (by nlinarith) hp99
      have hmono : j.progress ≤ round2 (min (j.progress + r * 50) 99) := by
        calc j.progress = round2 ((k : ℚ) / 100) := by rw [round2_fix, hk]
        _ ≤ round2 (min (j.progress + r * 50) 99) := round2_mono (by rw [← hk]; exact hmin)
      have hub : round2 (min (j.progress + r * 50) 99) ≤ 99 := by
        have : round2 (min (j.progress + r * 50) 99) ≤ round2 ((9900 : ℤ) / 100) :=
          round2_mono (by push_cast; exact (min_le_right _ _).trans (by norm_num))
        rw [round2_fix] at this
        exact this.trans_eq (by norm_num)
      rw [progressTickJob, if_pos hrun]
      by_cases h90 : 90 ≤ round2 (min (j.progress + r * 50) 99)
      · simp only [if_pos h90]
        refine ⟨by linarith, ?_⟩
        exact ⟨by norm_num, by norm_num, ⟨10000, by norm_num⟩,
          fun h => by rcases h with h | h <;> simp at h, fun _ => rfl⟩
      · simp only [if_neg h90]
        exact ⟨hmono, h0.trans hmono, by linarith,
          ⟨round (min (j.progress + r * 50) 99 * 100), rfl⟩,
          fun _ => hub, fun h => by simp [hrun] at h⟩
    · rw [progressTickJob, if_neg hrun]
      exact ⟨le_refl _, h0, h100, ⟨k, hk⟩, h99, hcompl⟩
  · by_cases hp : j.status = .pending
    · rw [startIfPending, if_pos hp]
      exact ⟨rfl, h0, h100, ⟨k, hk⟩, fun _ => h99 (Or.inl hp),
        fun h => by simp at h⟩
    · rw [startIfPending, if_neg hp]
      exact ⟨rfl, h0, h100, ⟨k, hk⟩, h99, hcompl⟩
  · exact ⟨h0, h100, ⟨k, hk⟩, fun h => by rcases h with h | h <;> simp at h,
      fun h => by simp at h⟩

/-- Concrete instance of `progress_lifecycle`: one interval callback on a
running job at progress 50 with random draw one half does not decrease the
progress. -/
theorem progress_lifecycle_witness :
    (mkJob "job_5" JobStatus.running 50 0).progress ≤
      (progressTickJob (mkJob "job_5" JobStatus.running 50 0) (1 / 2) 1).progress :=
  (progress_lifecycle [] sampleRequest "job_5" 0 1 (1 / 2)
      (mkJob "job_5" JobStatus.running 50 0) (by norm_num)
      ⟨by norm_num [mkJob], by norm_num [mkJob], ⟨5000, by norm_num [mkJob]⟩,
        fun _ => by norm_num [mkJob], fun h => by simp [mkJob] at h⟩).2.1.1

/-! Claim C6. -/

/-- The caller's parameter object at submission time in the aliasing
scenario. -/
def c6Params0 : DockingParameters :=
  { center_x := -3, center_y := 24, center_z := 40
    size_x := 20, size_y := 20, size_z := 20
    exhaustiveness := 8, num_modes := 9, energy_range := 3 }

/-- The value the caller writes into its parameter object after submitting. -/
def c6Params1 : DockingParameters := { c6Params0 with exhaustiveness := 16 }

/-- The store produced by submitting a job whose record references the
caller's parameter object (heap cell 0). -/
def c6Store : JobStore := (createDockingJob [] sampleRequest "job_6" 0).1

/-- Claim C6 as stated is false on the code: the stored record holds the
caller's parameters object itself, not a copy — after the caller mutates its
object, the parameters read through the stored record have changed. -/
theorem params_snapshot_cex :
    jobParams [c6Params0] c6Store "job_6" = some c6Params0 ∧
    jobParams (mutateParams [c6Params0] 0 c6Params1) c6Store "job_6" =
      some c6Params1 ∧
    c6Params1 ≠ c6Params0 := by
  exact ⟨by decide, by decide, by decide⟩

/-- Claim C6 (amended): the created record aliases the caller's parameters
object rather than snapshotting it: for every submission, mutating the
caller's object after `createDockingJob` returns is visible through the
stored record, which afterwards reads back the mutated value. -/
theorem params_alias (heap : Heap) (jobs : JobStore) (request : AnalysisRequest)
    (jobId : String) (now : ℚ) (p' : DockingParameters)
    (hfresh : findJob jobs jobId = none)
    (href : request.paramsRef < heap.length) :
    jobParams (mutateParams heap request.paramsRef p')
      (createDockingJob jobs request jobId now).1 jobId = some p' := by
  have hfind : findJob (createDockingJob jobs request jobId now).1 jobId =
      some (createDockingJob jobs request jobId now).2 :=
    findJob_append_new hfresh rfl
  rw [jobParams, hfind, Option.some_bind, derefParams, mutateParams]
  exact List.getElem?_set_eq_of_lt p' href

/-- Concrete instance of `params_alias`. -/
theorem params_alias_witness :
    jobParams (mutateParams [c6Params0] sampleRequest.paramsRef c6Params1)
      (createDockingJob [] sampleRequest "job_6w" 0).1 "job_6w" =
      some c6Params1 :=
  params_alias [c6Params0] [] sampleRequest "job_6w" 0 c6Params1 rfl (by decide)

/-! Claim C7. -/

/-- The store obtained by two successive submissions, the first at time 1,
the second at time 2. -/
def c7Store : JobStore :=
  (createDockingJob (createDockingJob [] sampleRequest "job_A7" 1).1
    sampleRequest "job_B7" 2).1

/-- Claim C7 as stated is false on the code: an unfiltered `loadJobs` of a
store built by two successive submissions returns the jobs in insertion
order — `created_at` ascending, `[1, 2]` — which is not ordered by
`created_at` descending. -/
theorem list_order_cex :
    ((loadJobs c7Store none).map fun j => j.created_at) = [1, 2] ∧
    ¬ List.Sorted (fun a b : DockingJob => b.created_at ≤ a.created_at)
        (loadJobs c7Store none) := by
  exact ⟨by decide, by decide⟩

/-- Claim C7 (amended): `loadJobs` returns exactly the jobs whose status
matches the filter (all jobs when no filter is given), as a sublist of the
store in store order — `created_at` ascending whenever the store is
ascending (the insertion order of successive submissions) — not descending. -/
theorem loadJobs_spec (jobs : JobStore) (f : Option JobStatus) :
    (∀ j, j ∈ loadJobs jobs f ↔ j ∈ jobs ∧ ∀ s, f = some s → j.status = s) ∧
    List.Sublist (loadJobs jobs f) jobs ∧
    (List.Sorted (fun a b : DockingJob => a.created_at ≤ b.created_at) jobs →
      List.Sorted (fun a b : DockingJob => a.created_at ≤ b.created_at)
        (loadJobs jobs f)) := by
  cases f with
  | none =>
    refine ⟨fun j => ?_, List.Sublist.refl _, fun h => h⟩
    simp [loadJobs]
  | some s =>
    refine ⟨fun j => ?_, List.filter_sublist _, fun h => ?_⟩
    · simp [loadJobs, List.mem_filter]
    · exact List.Pairwise.sublist (List.filter_sublist _) h

/-- Concrete instance of `loadJobs_spec`: the running job is listed under the
`running` filter. -/
theorem loadJobs_spec_witness :
    mkJob "job_b7" JobStatus.running 5 1 ∈
      loadJobs [mkJob "job_a7" JobStatus.completed 100 0,
                mkJob "job_b7" JobStatus.running 5 1] (some .running) :=
  ((loadJobs_spec
      [mkJob "job_a7" JobStatus.completed 100 0,
       mkJob "job_b7" JobStatus.running 5 1] (some .running)).1
    (mkJob "job_b7" JobStatus.running 5 1)).mpr
    ⟨by decide, fun s hs => by cases hs; rfl⟩

/-! Claim C8. -/

/-- Predicate: no record in the store has status `failed` and none carries
an error message. -/
def NoFailure (jobs : JobStore) : Prop :=
  ∀ j ∈ jobs, j.status ≠ .failed ∧ j.error_message = none

/-- Claim C8 as stated is false on the code: when the 30-second cleanup
fires while a job is still running, the code only clears the progress
interval — the store is returned untouched, the job is still `running`, it
is not marked `failed` and no timeout error message is recorded. -/
theorem timeout_cex :
    cleanupTimeout [mkJob "job_8" JobStatus.running 42 0] =
      ([mkJob "job_8" JobStatus.running 42 0], false) ∧
    (mkJob "job_8" JobStatus.running 42 0).status = .running ∧
    (mkJob "job_8" JobStatus.running 42 0).status ≠ .failed ∧
    (mkJob "job_8" JobStatus.running 42 0).error_message = none := by
  exact ⟨rfl, rfl, by decide, rfl⟩

/-- Helper for claim C8: one firing of the progress interval never produces
a failed record or an error message. -/
theorem progressTickJob_no_failed (j : DockingJob) (r now : ℚ)
    (h : j.status ≠ .failed) (he : j.error_message = none) :
    (progressTickJob j r now).status ≠ .failed ∧
    (progressTickJob j r now).error_message = none := by
  rw [progressTickJob]
  by_cases hr : j.status = .running
  · rw [if_pos hr]
    by_cases h90 : 90 ≤ round2 (min (j.progress + r * 50) 99)
    · simp only [if_pos h90]
      exact ⟨by simp, he⟩
    · simp only [if_neg h90]
      exact ⟨h, he⟩
  · rw [if_neg hr]
    exact ⟨h, he⟩

/-- Claim C8 (amended): the orchestration code enforces no hard per-job
wall-clock budget: the 30-second cleanup returns the store unchanged (it only
clears the interval timer), and no operation of the module — submission,
cancellation, deletion, the poll start step or the progress interval — ever
sets a status of `failed` or records an error message; a running job whose
simulated backend never finishes therefore stays `running` indefinitely. -/
theorem no_timeout_failure (jobs : JobStore) (jid : String)
    (request : AnalysisRequest) (jobId : String) (now r : ℚ)
    (hnf : NoFailure jobs) :
    (cleanupTimeout jobs).1 = jobs ∧
    NoFailure (createDockingJob jobs request jobId now).1 ∧
    NoFailure (cancelJob jobs jid).1 ∧
    NoFailure (deleteJob jobs jid).1 ∧
    NoFailure (pollJobStart jobs jid now) ∧
    NoFailure (progressTick jobs jid r now) := by
  refine ⟨rfl, ?_, ?_, ?_, ?_, ?_⟩
  · intro j hj
    rcases List.mem_append.mp hj with h | h
    · exact hnf j h
    · simp only [List.mem_singleton] at h
      subst h
      exact ⟨by simp, rfl⟩
  · intro j hj
    rcases mem_updateFirst hj with h | ⟨x, hx, rfl⟩
    · exact hnf j h
    · exact ⟨by simp, (hnf x hx).2⟩
  · intro j hj
    exact hnf j (mem_removeFirst hj)
  · intro j hj
    rcases mem_updateFirst hj with h | ⟨x, hx, rfl⟩
    · exact hnf j h
    · rw [startIfPending]
      by_cases hxp : x.status = .pending
      · rw [if_pos hxp]
        exact ⟨by simp, (hnf x hx).2⟩
      · rw [if_neg hxp]
        exact hnf x hx
  · intro j hj
    rcases mem_updateFirst hj with h | ⟨x, hx, rfl⟩
    · exact hnf j h
    · exact progressTickJob_no_failed x r now (hnf x hx).1 (hnf x hx).2

/-- Concrete instance of `no_timeout_failure`: the cleanup leaves a
one-running-job store exactly as it was. -/
theorem no_timeout_failure_witness :
    (cleanupTimeout [mkJob "job_8w" JobStatus.running 10 0]).1 =
      [mkJob "job_8w" JobStatus.running 10 0] :=
  (no_timeout_failure [mkJob "job_8w" JobStatus.running 10 0] "job_8w"
    sampleRequest "job_8n" 3 1
    (by
      intro j hj
      simp only [List.mem_singleton] at hj
      subst hj
      exact ⟨by decide, rfl⟩)).1

/-! Claim C9. -/

/-- Claim C9: the client-side polling utility resolves with the job exactly
when a terminal status (`completed`, `failed` or `cancelled`) is observed —
any resolved job has a terminal status, a terminal fetch resolves at once
with that job, a non-terminal fetch schedules another poll (the loop
continues on the rest of the stream, never resolving while every observed
status is non-terminal), and a fetch error rejects the promise. -/
theorem pollClient_spec :
    (∀ fetches (j : DockingJob),
        pollJobStatusClient fetches = some (.resolved j) →
        isTerminal j.status = true) ∧
    (∀ (j : DockingJob) rest, isTerminal j.status = true →
        pollJobStatusClient (.ok j :: rest) = some (.resolved j)) ∧
    (∀ (j : DockingJob) rest, isTerminal j.status = false →
        pollJobStatusClient (.ok j :: rest) = pollJobStatusClient rest) ∧
    (∀ fetches,
        (∀ x ∈ fetches, ∃ j, x = .ok j ∧ isTerminal j.status = false) →
        pollJobStatusClient fetches = none) ∧
    (∀ (e : String) rest,
        pollJobStatusClient (.error e :: rest) = some (.rejected e)) := by
  refine ⟨?_, ?_, ?_, ?_, ?_⟩
  · intro fetches
    induction fetches with
    | nil => intro j h; simp [pollJobStatusClient] at h
    | cons x rest ih =>
      intro j h
      cases x with
      | error e =>
        rw [pollJobStatusClient] at h
        simp at h
      | ok jx =>
        rw [pollJobStatusClient] at h
        by_cases ht : isTerminal jx.status = true
        · rw [if_pos ht] at h
          have hj : jx = j := by
            injection h with h'
            injection h' with h''
          rw [← hj]
          exact ht
        · rw [if_neg ht] at h
          exact ih j h
  · intro j rest ht
    rw [pollJobStatusClient, if_pos ht]
  · intro j rest ht
    rw [pollJobStatusClient, if_neg (by simp [ht])]
  · intro fetches
    induction fetches with
    | nil => intro _; rfl
    | cons x rest ih =>
      intro h
      obtain ⟨j, hx, hj⟩ := h x (by simp)
      subst hx
      rw [pollJobStatusClient, if_neg (by simp [hj])]
      exact ih fun y hy => h y (by simp [hy])
  · intro e rest
    rfl

/-- Concrete instance of `pollClient_spec`: a running fetch is skipped, then
a completed fetch resolves with that job. -/
theorem pollClient_spec_witness :
    pollJobStatusClient
      [Except.ok (mkJob "job_9" JobStatus.running 50 0),
       Except.ok (mkJob "job_9" JobStatus.completed 100 0)] =
      some (PollOutcome.resolved (mkJob "job_9" JobStatus.completed 100 0)) := by
  rw [pollClient_spec.2.2.1 (mkJob "job_9" JobStatus.running 50 0) _ (by decide)]
  exact pollClient_spec.2.1 (mkJob "job_9" JobStatus.completed 100 0) [] (by decide)

end QuantumDock
